import Mathlib

/-!
Shallow embedding of the routing / phased-execution / caching / synthesis core of
the place-foursquare repository, together with proofs settling the frozen claims.

Sources embedded:
- src/places/services/query-router.service.ts (QueryType, QueryAnalysis,
  classifyQueryType, extractLocations, extractCategories/Metrics/Timeframes,
  requiresMapping, requiresSummary, analyzeQuery, determineAgents)
- src/places/services/agent-coordination.service.ts, second (authoritative) copy
  (createExecutionPlan, estimateDuration, executeCoordinatedQuery, executePhase,
  buildPhaseContext, calculateBounds, calculateCenter)
- ToolProxyService (src/unnamed/part_031): executeWithCache cache read/write,
  generateCacheKey, getCacheStats
- src/places/services/intelligent-orchestrator.service.ts (applyUserContext,
  getCacheHitCount)

Modelling conventions:
- JavaScript numbers are modelled as rationals (ℚ); Date.now() timestamps and
  TTL milliseconds as integers (ℤ).
- JavaScript String.prototype.includes is modelled by `containsSub`;
  toLowerCase by mapping Char.toLower (the vocabularies involved are ASCII).
- Agent calls (mastra agent.generate), which may throw, are modelled as a
  parameter returning `Except String α`; the thrown message is the error value.
- Optional TS array fields (`locations?: string[]`) are modelled as plain lists,
  with `undefined` identified with `[]`: every truthiness test the embedded code
  performs (`locations && locations.length > 0`, `!locations?.length`) agrees on
  the two representations.
-/

/-! ## String utilities (JS `includes`, `toLowerCase`, title-casing, Set) -/

/-- Boolean list-prefix test on character lists. -/
def listPrefixB : List Char → List Char → Bool
  | [], _ => true
  | _ :: _, [] => false
  | a :: as, b :: bs => a == b && listPrefixB as bs

/-- Does `needle` occur as a contiguous run inside the character list? -/
def hasSubList (needle : List Char) : List Char → Bool
  | [] => needle.isEmpty
  | c :: t => listPrefixB needle (c :: t) || hasSubList needle t

/-- JS `s.includes(sub)`: substring occurrence test. -/
def containsSub (s sub : String) : Bool :=
  hasSubList sub.toList s.toList

/-- JS `s.toLowerCase()` (ASCII-adequate for the fixed vocabularies involved):
every character is lowercased. -/
def lowerStr (s : String) : String :=
  String.mk (s.toList.map Char.toLower)

/-- JS `word.charAt(0).toUpperCase() + word.slice(1)`. -/
def capitalizeWord (w : String) : String :=
  match w.toList with
  | [] => w
  | c :: rest => String.mk (c.toUpper :: rest)

/-- JS `city.split(' ').map(capitalize).join(' ')` from `extractLocations`. -/
def titleCase (city : String) : String :=
  String.intercalate (" ") ((city.splitOn (" ")).map capitalizeWord)

/-- JS `[...new Set(l)]`: keep the first occurrence of every element. -/
def dedupAux : List String → List String → List String
  | _, [] => []
  | seen, a :: rest =>
    if a ∈ seen then dedupAux seen rest else a :: dedupAux (a :: seen) rest

/-- Deduplication preserving first occurrences, as `[...new Set(matches)]`. -/
def dedupFirst (l : List String) : List String :=
  dedupAux [] l

/-! ## QueryRouterService -/

/-- The `QueryType` string enum of query-router.service.ts. -/
inductive QueryType where
  | SEARCH_ONLY
  | MAP_DATA_ONLY
  | COMPREHENSIVE
  | ANALYTICS
  | LOCATION_BASED
deriving DecidableEq

/-- The runtime string value of each `QueryType` enum member. -/
def QueryType.val : QueryType → String
  | .SEARCH_ONLY => ("search_only")
  | .MAP_DATA_ONLY => ("map_data_only")
  | .COMPREHENSIVE => ("comprehensive")
  | .ANALYTICS => ("analytics")
  | .LOCATION_BASED => ("location_based")

/-- The `extractedEntities` record of a `QueryAnalysis`. -/
structure ExtractedEntities where
  locations : List String
  categories : List String
  metrics : List String
  timeframes : List String
deriving DecidableEq

/-- The `QueryAnalysis` interface of query-router.service.ts. -/
structure QueryAnalysis where
  type : QueryType
  confidence : ℚ
  suggestedAgents : List String
  extractedEntities : ExtractedEntities
  requiresMapping : Bool
  requiresSummary : Bool

/-- `mapKeywords` of `classifyQueryType`. -/
def mapKeywords : List String :=
  [("map"), ("show on map"), ("geojson"), ("coordinates"), ("plot"), ("visualize")]

/-- `analyticsKeywords` of `classifyQueryType`. -/
def analyticsKeywords : List String :=
  [("average"), ("count"), ("sum"), ("how many"), ("statistics"), ("foot traffic"), ("busy")]

/-- `searchKeywords` of `classifyQueryType`. -/
def searchKeywords : List String :=
  [("find"), ("search"), ("look for"), ("locate")]

/-- `classifyQueryType(query)` of query-router.service.ts (lines 60-79). The
argument is the already-lowercased query, as passed by `analyzeQuery`. -/
def classifyQueryType (query : String) : QueryType :=
  if mapKeywords.any (fun k => containsSub query k) then QueryType.MAP_DATA_ONLY
  else if analyticsKeywords.any (fun k => containsSub query k) then QueryType.ANALYTICS
  else if searchKeywords.any (fun k => containsSub query k)
          && !containsSub query ("weather") && !containsSub query ("events") then
    QueryType.SEARCH_ONLY
  else QueryType.COMPREHENSIVE

/-- The `majorCities` lookup table of `extractLocations`, verbatim including its
duplicated entries (columbus, aurora, glendale each occur twice in the source). -/
def majorCities : List String :=
  [("new york"), ("los angeles"), ("chicago"), ("houston"), ("phoenix"), ("philadelphia"),
   ("san antonio"), ("san diego"), ("dallas"), ("san jose"), ("austin"), ("jacksonville"),
   ("fort worth"), ("columbus"), ("charlotte"), ("san francisco"), ("indianapolis"),
   ("seattle"), ("denver"), ("washington"), ("boston"), ("el paso"), ("detroit"), ("nashville"),
   ("portland"), ("memphis"), ("oklahoma city"), ("las vegas"), ("louisville"), ("baltimore"),
   ("milwaukee"), ("albuquerque"), ("tucson"), ("fresno"), ("mesa"), ("sacramento"), ("atlanta"),
   ("kansas city"), ("colorado springs"), ("miami"), ("raleigh"), ("omaha"), ("long beach"),
   ("virginia beach"), ("oakland"), ("minneapolis"), ("tulsa"), ("arlington"), ("tampa"),
   ("new orleans"), ("wichita"), ("cleveland"), ("bakersfield"), ("aurora"), ("anaheim"),
   ("honolulu"), ("santa ana"), ("corpus christi"), ("riverside"), ("lexington"), ("stockton"),
   ("toledo"), ("st. paul"), ("newark"), ("greensboro"), ("plano"), ("henderson"), ("lincoln"),
   ("buffalo"), ("jersey city"), ("chula vista"), ("fort wayne"), ("orlando"), ("st. petersburg"),
   ("chandler"), ("laredo"), ("norfolk"), ("durham"), ("madison"), ("lubbock"), ("irvine"),
   ("winston-salem"), ("glendale"), ("garland"), ("hialeah"), ("reno"), ("chesapeake"),
   ("gilbert"), ("baton rouge"), ("irving"), ("scottsdale"), ("north las vegas"), ("fremont"),
   ("boise"), ("richmond"), ("san bernardino"), ("birmingham"), ("spokane"), ("rochester"),
   ("des moines"), ("modesto"), ("fayetteville"), ("tacoma"), ("oxnard"), ("fontana"),
   ("columbus"), ("montgomery"), ("moreno valley"), ("shreveport"), ("aurora"), ("yonkers"),
   ("akron"), ("huntington beach"), ("little rock"), ("augusta"), ("amarillo"), ("glendale"),
   ("mobile"), ("grand rapids"), ("salt lake city"), ("tallahassee"), ("huntsville"),
   ("grand prairie"), ("knoxville"), ("worcester"), ("newport news"), ("brownsville")]

/-- The city-table section of `extractLocations`: every table city contained in
the lowercased query is pushed in title case. -/
def cityMatches (query : String) : List String :=
  (majorCities.filter (fun city => containsSub (lowerStr query) city)).map titleCase

/-- The `extractLocations(query)` of query-router.service.ts (lines 108-175).
The six regular-expression pattern rules (landmark suffixes, preposition-led
phrases, City-State pairs, state-name suffixes, coordinate pairs, street
addresses) are abstracted as the parameter `regexMatches`: the list of strings
the pattern loop pushes before the city table is consulted. Every theorem below
quantifies over all values of this parameter, so it holds in particular for the
concrete output of the pattern loop. The final `[...new Set(matches)]` is
`dedupFirst`. -/
def extractLocations (regexMatches : List String) (query : String) : List String :=
  dedupFirst (regexMatches ++ cityMatches query)

/-- `extractCategories` of query-router.service.ts. -/
def extractCategories (query : String) : List String :=
  [("restaurant"), ("cafe"), ("coffee shop"), ("hotel"), ("gas station"),
   ("pharmacy"), ("hospital"), ("bank"), ("atm"), ("grocery store")].filter
    (fun c => containsSub (lowerStr query) c)

/-- `extractMetrics` of query-router.service.ts. -/
def extractMetrics (query : String) : List String :=
  [("average"), ("count"), ("sum"), ("max"), ("min"), ("total")].filter
    (fun m => containsSub (lowerStr query) m)

/-- `extractTimeframes` of query-router.service.ts. -/
def extractTimeframes (query : String) : List String :=
  [("today"), ("tomorrow"), ("this week"), ("weekend"), ("next week")].filter
    (fun t => containsSub (lowerStr query) t)

/-- `requiresMapping(query)` of query-router.service.ts; receives the lowercased
query (as called from `analyzeQuery`) and re-runs `extractLocations` on it. -/
def requiresMappingF (regexMatches : List String) (query : String) : Bool :=
  [("map"), ("show"), ("plot"), ("visualize"), ("geojson"), ("coordinates")].any
      (fun k => containsSub query k)
    || !(extractLocations regexMatches query).isEmpty
    || [("area"), ("around"), ("near"), ("location"), ("suitability"), ("competition"),
        ("analyze")].any (fun k => containsSub (lowerStr query) k)

/-- `requiresSummary(query)` of query-router.service.ts. -/
def requiresSummaryF (query : String) : Bool :=
  [("tell me"), ("explain"), ("describe"), ("what"), ("how")].any
    (fun k => containsSub query k)

/-- `determineAgents(analysis)` of query-router.service.ts. -/
def determineAgents (analysis : QueryAnalysis) : List String :=
  match analysis.type with
  | .MAP_DATA_ONLY => [("mapDataAgent")]
  | .SEARCH_ONLY => [("orchestratorAgent")]
  | .COMPREHENSIVE =>
    if analysis.requiresMapping then [("orchestratorAgent"), ("mapDataAgent")]
    else [("orchestratorAgent")]
  | .ANALYTICS => [("orchestratorAgent")]
  | .LOCATION_BASED => [("orchestratorAgent"), ("mapDataAgent")]

/-- `analyzeQuery(query)` of query-router.service.ts (lines 29-58). The regex
section of `extractLocations` is abstracted as `regexMatches` (see there); the
confidence is the constant baseline 0.8 from the source. -/
def analyzeQuery (regexMatches : List String) (query : String) : QueryAnalysis :=
  let lowerQuery := lowerStr query
  let base : QueryAnalysis :=
    { type := classifyQueryType lowerQuery
      confidence := (0.8 : ℚ)
      suggestedAgents := []
      extractedEntities :=
        { locations := extractLocations regexMatches query
          categories := extractCategories query
          metrics := extractMetrics query
          timeframes := extractTimeframes query }
      requiresMapping := requiresMappingF regexMatches lowerQuery
      requiresSummary := requiresSummaryF lowerQuery }
  { base with suggestedAgents := determineAgents base }

/-! ## AgentCoordinationService: execution planning -/

/-- The `ExecutionPhase` interface of agent-coordination.service.ts. -/
structure ExecutionPhase where
  name : String
  agent : String
  tools : List String
  dependencies : List String
  parallel : Bool
deriving DecidableEq

/-- The `ExecutionPlan` interface of agent-coordination.service.ts. -/
structure ExecutionPlan where
  phases : List ExecutionPhase
  estimatedDuration : Nat
  parallelizable : Bool
deriving DecidableEq

/-- `estimateDuration(phases)`: 2000 ms base plus 1500 ms per phase. -/
def estimateDuration (phases : List ExecutionPhase) : Nat :=
  2000 + phases.length * 1500

/-- The `planning` phase literal pushed by `createExecutionPlan`. -/
def phasePlanning : ExecutionPhase :=
  { name := ("planning"), agent := ("plannerAgent"), tools := [("planTool")],
    dependencies := [], parallel := false }

/-- The `data_collection` phase literal (COMPREHENSIVE branch). -/
def phaseDataCollection : ExecutionPhase :=
  { name := ("data_collection"), agent := ("orchestratorAgent"),
    tools := [("executePlanTool")], dependencies := [("planning")], parallel := false }

/-- The `map_generation` phase literal of the COMPREHENSIVE branch. -/
def phaseMapGenComprehensive : ExecutionPhase :=
  { name := ("map_generation"), agent := ("mapDataAgent"),
    tools := [("formatMapDataTool")], dependencies := [("data_collection")],
    parallel := true }

/-- The `summarization` phase literal (COMPREHENSIVE branch; always pushed). -/
def phaseSummarization : ExecutionPhase :=
  { name := ("summarization"), agent := ("summarizerAgent"),
    tools := [("summarizeTool")], dependencies := [("data_collection")],
    parallel := true }

/-- The `geospatial_data` phase literal (MAP_DATA_ONLY branch). -/
def phaseGeospatialData : ExecutionPhase :=
  { name := ("geospatial_data"), agent := ("mapDataAgent"),
    tools := [("executePlanTool"), ("formatMapDataTool")],
    dependencies := [("planning")], parallel := false }

/-- The `direct_search` phase literal (SEARCH_ONLY branch). -/
def phaseDirectSearch : ExecutionPhase :=
  { name := ("direct_search"), agent := ("orchestratorAgent"),
    tools := [("planTool"), ("executePlanTool")], dependencies := [], parallel := false }

/-- The `map_generation` phase literal of the SEARCH_ONLY branch. -/
def phaseMapGenSearch : ExecutionPhase :=
  { name := ("map_generation"), agent := ("mapDataAgent"),
    tools := [("formatMapDataTool")], dependencies := [("direct_search")],
    parallel := false }

/-- The `data_aggregation` phase literal (ANALYTICS branch). -/
def phaseDataAggregation : ExecutionPhase :=
  { name := ("data_aggregation"), agent := ("orchestratorAgent"),
    tools := [("executePlanTool")], dependencies := [("planning")], parallel := false }

/-- The `analysis_summary` phase literal (ANALYTICS branch). -/
def phaseAnalysisSummary : ExecutionPhase :=
  { name := ("analysis_summary"), agent := ("summarizerAgent"),
    tools := [("summarizeTool")], dependencies := [("data_aggregation")],
    parallel := false }

/-- The `map_generation` phase literal of the ANALYTICS branch. -/
def phaseMapGenAnalytics : ExecutionPhase :=
  { name := ("map_generation"), agent := ("mapDataAgent"),
    tools := [("formatMapDataTool")], dependencies := [("data_aggregation")],
    parallel := true }

/-- `createExecutionPlan(analysis)` of agent-coordination.service.ts
(lines 361-483, the authoritative second copy). The source switch has cases for
COMPREHENSIVE, MAP_DATA_ONLY, SEARCH_ONLY and ANALYTICS only; for
LOCATION_BASED (or any other value) the switch falls through and `phases`
remains the empty array. -/
def createExecutionPlan (analysis : QueryAnalysis) : ExecutionPlan :=
  let hasLocations := !analysis.extractedEntities.locations.isEmpty
  let shouldGenerateMap := analysis.requiresMapping || hasLocations
  let phases : List ExecutionPhase :=
    match analysis.type with
    | .COMPREHENSIVE =>
      [phasePlanning, phaseDataCollection]
        ++ (if shouldGenerateMap then [phaseMapGenComprehensive] else [])
        ++ [phaseSummarization]
    | .MAP_DATA_ONLY => [phasePlanning, phaseGeospatialData]
    | .SEARCH_ONLY =>
      [phaseDirectSearch] ++ (if shouldGenerateMap then [phaseMapGenSearch] else [])
    | .ANALYTICS =>
      [phasePlanning, phaseDataAggregation, phaseAnalysisSummary]
        ++ (if shouldGenerateMap then [phaseMapGenAnalytics] else [])
    | .LOCATION_BASED => []
  { phases := phases
    estimatedDuration := estimateDuration phases
    parallelizable := phases.any (fun p => p.parallel) }

/-- Dependency-validity checker: every phase's dependencies name only phases
seen strictly earlier (given the names already `seen`). -/
def depsOkB : List String → List ExecutionPhase → Bool
  | _, [] => true
  | seen, p :: rest =>
    p.dependencies.all (fun d => seen.contains d) && depsOkB (seen ++ [p.name]) rest

/-- The invariant of claim C4 in propositional form: every phase's dependencies
reference only names of phases appearing strictly earlier in the list. -/
def DepsValid (phases : List ExecutionPhase) : Prop :=
  ∀ i (hi : i < phases.length) d, d ∈ (phases.get ⟨i, hi⟩).dependencies →
    d ∈ (phases.take i).map (fun p => p.name)

/-! ## AgentCoordinationService: coordinated execution

`executeCoordinatedQuery` (lines 314-359) builds the plan, then inside one
try/catch executes the phases in order, accumulating `phaseResults`; a phase
whose agent call throws (`executePhase`, lines 485-512, throws when the agent
is missing or `agent.generate` rejects) aborts the loop and the catch block
returns `success:false` with an EMPTY results map and the single error message.
The agent call is modelled as the parameter `exec`; `combineResults` is
abstracted as the parameter `combine` (its output is opaque to the claims about
coordination control flow). Wall-clock `executionTime` is omitted. -/

/-- `buildPhaseContext(phase, previousResults)`: collect the results of the
phase's dependencies that are present (truthy) in the results map. -/
def buildPhaseContext {α : Type} (p : ExecutionPhase) (prev : List (String × α)) :
    List (String × α) :=
  p.dependencies.filterMap (fun d => (List.lookup d prev).map (fun r => (d, r)))

/-- The phase loop of `executeCoordinatedQuery`: run each phase in order with
its dependency context, appending its result under its name; a throwing phase
aborts with the error. -/
def runPhases {α : Type} (exec : ExecutionPhase → List (String × α) → Except String α) :
    List ExecutionPhase → List (String × α) → Except String (List (String × α))
  | [], acc => Except.ok acc
  | p :: rest, acc =>
    match exec p (buildPhaseContext p acc) with
    | Except.error e => Except.error e
    | Except.ok r => runPhases exec rest (acc ++ [(p.name, r)])

/-- The `ExecutionResult` interface (wall-clock `executionTime` omitted;
`errors?` is the optional error list of the catch block). -/
structure ExecutionResultM (α β : Type) where
  phaseResults : List (String × α)
  finalOutput : Option β
  success : Bool
  errors : Option (List String)
deriving DecidableEq

/-- `executeCoordinatedQuery(query, analysis)` control flow: all phases succeed
and the combined output is returned with `success:true`, or the first failure
is caught and an empty result map with `success:false` and the error message is
returned. The top-level function is total: it never propagates the error. -/
def executeCoordinatedQuery {α β : Type}
    (exec : ExecutionPhase → List (String × α) → Except String α)
    (combine : QueryAnalysis → List (String × α) → β)
    (analysis : QueryAnalysis) : ExecutionResultM α β :=
  let plan := createExecutionPlan analysis
  match runPhases exec plan.phases [] with
  | Except.ok results =>
    { phaseResults := results, finalOutput := some (combine analysis results),
      success := true, errors := none }
  | Except.error e =>
    { phaseResults := [], finalOutput := none, success := false, errors := some [e] }

/-! ## AgentCoordinationService: bounds and center -/

/-- GeoJSON geometry as used by `calculateBounds`/`calculateCenter`: a type tag
and a coordinate pair `[lon, lat]` (modelled as `(lon, lat)`). -/
structure GeometryM where
  gtype : String
  coordinates : ℚ × ℚ
deriving DecidableEq

/-- A feature as probed by the source: an optional geometry
(`feature.geometry?.type === 'Point'`). -/
structure FeatureM where
  geometry : Option GeometryM
deriving DecidableEq

/-- The bounds object returned by `calculateBounds`. -/
structure BoundsM where
  north : ℚ
  south : ℚ
  east : ℚ
  west : ℚ
deriving DecidableEq

/-- The center object returned by `calculateCenter`. -/
structure CenterM where
  lat : ℚ
  lon : ℚ
deriving DecidableEq

/-- The coordinates of the Point-typed features, in order: exactly the features
both loops act on. -/
def pointCoords (features : List FeatureM) : List (ℚ × ℚ) :=
  features.filterMap (fun f =>
    match f.geometry with
    | some g => if g.gtype = ("Point") then some g.coordinates else none
    | none => none)

/-- `calculateBounds(features)` (lines 860-886). The source folds min/max over
the Point features starting from plus or minus Infinity sentinels and returns
null when `minLat` is still Infinity; over ℚ this is translated as the
equivalent fold from the first Point coordinate, with the sentinel check
becoming the empty-Point-list case. The initial `features.length === 0` check
is kept. -/
def calculateBounds (features : List FeatureM) : Option BoundsM :=
  if features.isEmpty then none
  else
    match pointCoords features with
    | [] => none
    | p :: rest =>
      some { north := rest.foldl (fun m q => max m q.2) p.2
             south := rest.foldl (fun m q => min m q.2) p.2
             east := rest.foldl (fun m q => max m q.1) p.1
             west := rest.foldl (fun m q => min m q.1) p.1 }

/-- `calculateCenter(features)` (lines 888-910): accumulate `totalLat`,
`totalLon` and `count` over the Point features; null when `count` is 0, else
the arithmetic means. -/
def calculateCenter (features : List FeatureM) : Option CenterM :=
  if features.isEmpty then none
  else
    let pts := pointCoords features
    if pts.length = 0 then none
    else
      some { lat := (pts.foldl (fun s q => s + q.2) 0) / (pts.length : ℚ)
             lon := (pts.foldl (fun s q => s + q.1) 0) / (pts.length : ℚ) }

/-! ## ToolProxyService (src/unnamed/part_031): cache -/

/-- The `CacheEntry` interface of ToolProxyService. -/
structure CacheEntryM (V : Type) where
  result : V
  timestamp : Int
  ttl : Int
deriving DecidableEq

/-- The `ToolResult` interface (wall-clock `executionTime` omitted). -/
structure ToolResultM (V : Type) where
  data : V
  cached : Bool
  toolName : String
deriving DecidableEq

/-- `defaultTTL`: five minutes in milliseconds. -/
def defaultTTL : Int := 5 * 60 * 1000

/-- JS `Map.delete(key)` on the insertion-ordered entry list. -/
def removeKey {V : Type} (key : String) (cache : List (String × V)) :
    List (String × V) :=
  cache.filter (fun kv => kv.1 != key)

/-- JS `Map.set(key, v)`: overwrite in place when present, else append. -/
def setKey {V : Type} (key : String) (v : V) :
    List (String × V) → List (String × V)
  | [] => [(key, v)]
  | (k1, v1) :: t => if k1 = key then (key, v) :: t else (k1, v1) :: setKey key v t

/-- The cache-read block of `executeWithCache` (lines 114-129): a present entry
younger than its TTL is a hit and leaves the cache unchanged; a present entry
past its TTL is deleted and treated as a miss; an absent key is a miss. -/
def cacheGet {V : Type} (cache : List (String × CacheEntryM V)) (key : String)
    (now : Int) : Option V × List (String × CacheEntryM V) :=
  match List.lookup key cache with
  | none => (none, cache)
  | some e =>
    if now - e.timestamp < e.ttl then (some e.result, cache)
    else (none, removeKey key cache)

/-- `generateCacheKey(toolName, params)` (lines 169-173):
`JSON.stringify(params, Object.keys(params).sort())` serialises the object's
keys in the order of the sorted key array (the ECMAScript PropertyList drives
the serialisation order), then the result is base64-encoded and prefixed with
the tool name. Parameter values are opaque (type `J`) and serialised by `ser`;
the base64 step is the uninterpreted deterministic encoding `b64`; JS default
array sort (lexicographic by code unit) is modelled by `List.insertionSort` on
the String order. -/
def sortedKeys {J : Type} (params : List (String × J)) : List String :=
  List.insertionSort (fun a b => a ≤ b) (params.map Prod.fst)

/-- The serialisation body of `JSON.stringify(params, sortedKeyList)`: each key
of the sorted list present in the object is rendered in that order. -/
def stringifySorted {J : Type} (ser : J → String) (params : List (String × J)) :
    String :=
  let rendered := (sortedKeys params).filterMap (fun k =>
    (List.lookup k params).map (fun v => ("\"") ++ k ++ ("\":") ++ ser v))
  ("\x7b") ++ String.intercalate (",") rendered ++ ("\x7d")

/-- `generateCacheKey` proper: tool name, colon, base64 of the sorted-key
serialisation. -/
def generateCacheKey {J : Type} (ser : J → String) (b64 : String → String)
    (toolName : String) (params : List (String × J)) : String :=
  toolName ++ (":") ++ b64 (stringifySorted ser params)

/-- `executeWithCache(toolName, params, useCache, customTTL)` (lines 105-167).
The agent invocation is the parameter `execute` (its rejection is the thrown
error, which propagates); `result.text || result` is the parameter `extract`.
On a cache hit the stored result is returned with `cached:true`; otherwise the
tool runs and, when `useCache` holds, the result is stored under the derived
key with `customTTL || defaultTTL`. -/
def executeWithCache {V J : Type} (ser : J → String) (b64 : String → String)
    (extract : V → V) (toolName : String) (params : List (String × J))
    (useCache : Bool) (customTTL : Option Int) (now : Int)
    (execute : Except String V) (cache : List (String × CacheEntryM V)) :
    Except String (ToolResultM V) × List (String × CacheEntryM V) :=
  let cacheKey := generateCacheKey ser b64 toolName params
  let runTool := fun (c : List (String × CacheEntryM V)) =>
    match execute with
    | Except.error e => (Except.error e, c)
    | Except.ok r =>
      let c2 := if useCache then
          setKey cacheKey { result := r, timestamp := now,
                            ttl := customTTL.getD defaultTTL } c
        else c
      (Except.ok { data := extract r, cached := false, toolName := toolName }, c2)
  if useCache then
    match cacheGet cache cacheKey now with
    | (some v, c1) => (Except.ok { data := v, cached := true, toolName := toolName }, c1)
    | (none, c1) => runTool c1
  else runTool cache

/-- One reported entry of `getCacheStats` (key truncated to the tool name,
i.e. the part before the first colon). -/
structure CacheStatEntry where
  key : String
  age : Int
  ttl : Int
deriving DecidableEq

/-- The record returned by `getCacheStats`. -/
structure CacheStatsM where
  size : Nat
  entries : List CacheStatEntry
deriving DecidableEq

/-- `getCacheStats()` of ToolProxyService (lines 181-192): the current number
of stored entries plus per-entry age and TTL. -/
def getCacheStats {V : Type} (cache : List (String × CacheEntryM V)) (now : Int) :
    CacheStatsM :=
  { size := cache.length
    entries := cache.map (fun kv =>
      { key := ((kv.1.splitOn (":")).headD (""))
        age := now - kv.2.timestamp
        ttl := kv.2.ttl }) }

/-- `cleanExpiredEntries()` of ToolProxyService: drop every entry whose age has
reached its TTL, returning the removed count. -/
def cleanExpiredEntries {V : Type} (cache : List (String × CacheEntryM V))
    (now : Int) : Nat × List (String × CacheEntryM V) :=
  let kept := cache.filter (fun kv => now - kv.2.timestamp < kv.2.ttl)
  (cache.length - kept.length, kept)

/-! ## IntelligentOrchestratorService -/

/-- The `domainFocus` union of the request context. -/
inductive DomainFocus where
  | places
  | events
  | analytics
  | navigation
deriving DecidableEq

/-- The `context` field of an `IntelligentQueryRequest` (previousQueries is
unused by the embedded code and omitted). -/
structure UserContext where
  userLocation : Option (ℚ × ℚ)
  domainFocus : Option DomainFocus

/-- `applyUserContext(analysis, context)` of
intelligent-orchestrator.service.ts (lines 154-185). A supplied user location
is injected as the sole location entity when none was extracted. The
`domainFocus` switch then adjusts confidence: the `places` branch tests
`analysis.type.includes('SEARCH') || analysis.type.includes('COMPREHENSIVE')`
against the runtime STRING VALUE of the enum (`'search_only'`, …); the
`analytics` branch compares the enum directly and bumps by 0.2 capped at 1.0.
JS number-to-string formatting of the injected coordinates is modelled by ℚ
`toString` (no claim depends on the text). -/
def applyUserContext (analysis : QueryAnalysis) (context : Option UserContext) :
    QueryAnalysis :=
  match context with
  | none => analysis
  | some c =>
    let a1 :=
      match c.userLocation with
      | some (lat, lon) =>
        if analysis.extractedEntities.locations.isEmpty then
          { analysis with extractedEntities :=
              { analysis.extractedEntities with
                  locations := [toString lat ++ (",") ++ toString lon] } }
        else analysis
      | none => analysis
    match c.domainFocus with
    | some DomainFocus.places =>
      if containsSub a1.type.val ("SEARCH")
          || containsSub a1.type.val ("COMPREHENSIVE") then
        { a1 with confidence := min (a1.confidence + (0.1 : ℚ)) 1 }
      else a1
    | some DomainFocus.analytics =>
      if a1.type = QueryType.ANALYTICS then
        { a1 with confidence := min (a1.confidence + (0.2 : ℚ)) 1 }
      else a1
    | _ => a1

/-- `getCacheHitCount()` of intelligent-orchestrator.service.ts
(lines 292-295): the `size` of the proxy's cache statistics. -/
def getCacheHitCount {V : Type} (cache : List (String × CacheEntryM V))
    (now : Int) : Nat :=
  (getCacheStats cache now).size

/-! ## Concrete inputs used by counterexamples and witnesses -/

/-- A COMPREHENSIVE analysis with a location entity and mapping required; its
plan is planning → data_collection → map_generation, summarization. -/
def analysisComprehensive : QueryAnalysis :=
  { type := QueryType.COMPREHENSIVE, confidence := (0.8 : ℚ), suggestedAgents := [],
    extractedEntities :=
      { locations := [("Austin")], categories := [], metrics := [], timeframes := [] },
    requiresMapping := true, requiresSummary := true }

/-- The same analysis with type LOCATION_BASED. -/
def analysisLocationBased : QueryAnalysis :=
  { analysisComprehensive with type := QueryType.LOCATION_BASED }

/-- A SEARCH_ONLY analysis with no entities, at the baseline confidence. -/
def analysisSearchPlain : QueryAnalysis :=
  { type := QueryType.SEARCH_ONLY, confidence := (0.8 : ℚ), suggestedAgents := [],
    extractedEntities :=
      { locations := [], categories := [], metrics := [], timeframes := [] },
    requiresMapping := false, requiresSummary := false }

/-- An executor that fails (throws) exactly on the `map_generation` phase and
returns the text `ok` elsewhere: the simulated transient error of the claim. -/
def execFailMapGen : ExecutionPhase → List (String × String) → Except String String :=
  fun p _ => if p.name = ("map_generation") then Except.error ("transient") else Except.ok ("ok")

/-- A combination function exposing the raw results map. -/
def combineRaw : QueryAnalysis → List (String × String) → List (String × String) :=
  fun _ rs => rs

/-- A feature list with two Point features (lon, lat) = (1, 2) and (3, 4), one
feature without geometry and one non-Point geometry. -/
def featuresSample : List FeatureM :=
  [{ geometry := some { gtype := ("Point"), coordinates := (1, 2) } },
   { geometry := none },
   { geometry := some { gtype := ("LineString"), coordinates := (9, 9) } },
   { geometry := some { gtype := ("Point"), coordinates := (3, 4) } }]

/-- A one-entry cache: value `v` stored at time 0 with a TTL of 5 ms. -/
def cacheSample : List (String × CacheEntryM String) :=
  [(("k"), { result := ("v"), timestamp := 0, ttl := 5 })]

/-! ## Theorems for claim C3 (classification precedence) -/

/-- Claim C3: classification applies the fixed precedence — any mapping keyword
yields MAP_DATA_ONLY; otherwise any analytics keyword yields ANALYTICS;
otherwise a search keyword with no mention of weather or events yields
SEARCH_ONLY; otherwise COMPREHENSIVE; and the input
"show me a map of how many cafes" classifies as MAP_DATA_ONLY even though it
contains the analytics keyword "how many". -/
theorem claim_C3 :
    (∀ q : String,
      ((∃ k ∈ mapKeywords, containsSub q k = true) →
        classifyQueryType q = QueryType.MAP_DATA_ONLY)
      ∧ ((∀ k ∈ mapKeywords, containsSub q k = false) →
          (∃ k ∈ analyticsKeywords, containsSub q k = true) →
          classifyQueryType q = QueryType.ANALYTICS)
      ∧ ((∀ k ∈ mapKeywords, containsSub q k = false) →
          (∀ k ∈ analyticsKeywords, containsSub q k = false) →
          (∃ k ∈ searchKeywords, containsSub q k = true) →
          containsSub q ("weather") = false →
          containsSub q ("events") = false →
          classifyQueryType q = QueryType.SEARCH_ONLY)
      ∧ ((∀ k ∈ mapKeywords, containsSub q k = false) →
          (∀ k ∈ analyticsKeywords, containsSub q k = false) →
          ((∀ k ∈ searchKeywords, containsSub q k = false)
            ∨ containsSub q ("weather") = true ∨ containsSub q ("events") = true) →
          classifyQueryType q = QueryType.COMPREHENSIVE))
    ∧ classifyQueryType ("show me a map of how many cafes") = QueryType.MAP_DATA_ONLY := by
  constructor
  · intro q
    refine ⟨?_, ?_, ?_, ?_⟩
    · rintro ⟨k, hk, hc⟩
      have hb : mapKeywords.any (fun k => containsSub q k) = true :=
        List.any_eq_true.2 ⟨k, hk, hc⟩
      simp [classifyQueryType, hb]
    · intro hM ⟨k, hk, hc⟩
      have hbM : mapKeywords.any (fun k => containsSub q k) = false := by
        simp only [List.any_eq_false]
        intro x hx
        simp [hM x hx]
      have hbA : analyticsKeywords.any (fun k => containsSub q k) = true :=
        List.any_eq_true.2 ⟨k, hk, hc⟩
      simp [classifyQueryType, hbM, hbA]
    · intro hM hA ⟨k, hk, hc⟩ hw he
      have hbM : mapKeywords.any (fun k => containsSub q k) = false := by
        simp only [List.any_eq_false]
        intro x hx
        simp [hM x hx]
      have hbA : analyticsKeywords.any (fun k => containsSub q k) = false := by
        simp only [List.any_eq_false]
        intro x hx
        simp [hA x hx]
      have hbS : searchKeywords.any (fun k => containsSub q k) = true :=
        List.any_eq_true.2 ⟨k, hk, hc⟩
      simp [classifyQueryType, hbM, hbA, hbS, hw, he]
    · intro hM hA hrest
      have hbM : mapKeywords.any (fun k => containsSub q k) = false := by
        simp only [List.any_eq_false]
        intro x hx
        simp [hM x hx]
      have hbA : analyticsKeywords.any (fun k => containsSub q k) = false := by
        simp only [List.any_eq_false]
        intro x hx
        simp [hA x hx]
      rcases hrest with hS | hw | he
      · have hbS : searchKeywords.any (fun k => containsSub q k) = false := by
          simp only [List.any_eq_false]
          intro x hx
          simp [hS x hx]
        simp [classifyQueryType, hbM, hbA, hbS]
      · simp [classifyQueryType, hbM, hbA, hw]
      · simp [classifyQueryType, hbM, hbA, he]
  · decide

/-- Witness for claim C3: the SEARCH_ONLY precedence rule applied at the
concrete input "find cafes". -/
theorem claim_C3_witness :
    classifyQueryType ("find cafes") = QueryType.SEARCH_ONLY :=
  (claim_C3.1 ("find cafes")).2.2.1 (by decide) (by decide)
    ⟨("find"), by decide, by decide⟩ (by decide) (by decide)

/-! ## Theorems for claim C9 (location dedup) -/

/-- Membership in the Set-style deduplication: an element occurs in the output
iff it occurs in the input and was not already seen. -/
theorem mem_dedupAux (l : List String) :
    ∀ (seen : List String) (x : String), x ∈ dedupAux seen l ↔ (x ∈ l ∧ x ∉ seen) := by
  induction l with
  | nil => intro seen x; simp [dedupAux]
  | cons a t ih =>
    intro seen x
    by_cases ha : a ∈ seen
    · rw [dedupAux, if_pos ha, ih]
      constructor
      · rintro ⟨hx, hs⟩
        exact ⟨List.mem_cons_of_mem a hx, hs⟩
      · rintro ⟨hx, hs⟩
        rcases List.mem_cons.1 hx with rfl | hxt
        · exact absurd ha hs
        · exact ⟨hxt, hs⟩
    · rw [dedupAux, if_neg ha]
      constructor
      · intro hx
        rcases List.mem_cons.1 hx with rfl | hxd
        · exact ⟨List.mem_cons_self _ _, ha⟩
        · obtain ⟨hxt, hxs⟩ := (ih _ _).1 hxd
          exact ⟨List.mem_cons_of_mem _ hxt, fun hc => hxs (List.mem_cons_of_mem _ hc)⟩
      · rintro ⟨hx, hs⟩
        rcases List.mem_cons.1 hx with rfl | hxt
        · exact List.mem_cons_self _ _
        · by_cases hxa : x = a
          · subst hxa
            exact List.mem_cons_self _ _
          · refine List.mem_cons_of_mem _ ((ih _ _).2 ⟨hxt, ?_⟩)
            intro hc
            rcases List.mem_cons.1 hc with h1 | h2
            · exact hxa h1
            · exact hs h2

/-- The Set-style deduplication never outputs two equal strings. -/
theorem nodup_dedupAux (l : List String) : ∀ seen, (dedupAux seen l).Nodup := by
  induction l with
  | nil => intro seen; simp [dedupAux]
  | cons a t ih =>
    intro seen
    by_cases ha : a ∈ seen
    · rw [dedupAux, if_pos ha]
      exact ih seen
    · rw [dedupAux, if_neg ha]
      refine List.nodup_cons.2 ⟨?_, ih _⟩
      intro hmem
      exact ((mem_dedupAux t _ a).1 hmem).2 (List.mem_cons_self a seen)

/-- Claim C9: for every query containing a known city of the lookup table
(case-insensitively), the extracted location list contains that city (in its
title-cased form) exactly once, and the returned list never contains two
exactly-equal strings — for every output of the abstracted regex pattern
section. -/
theorem claim_C9 (regexMatches : List String) (query city : String)
    (hcity : city ∈ majorCities) (hsub : containsSub (lowerStr query) city = true) :
    (extractLocations regexMatches query).Nodup
    ∧ List.count (titleCase city) (extractLocations regexMatches query) = 1 := by
  have hnd : (extractLocations regexMatches query).Nodup := nodup_dedupAux _ []
  refine ⟨hnd, ?_⟩
  have hmem : titleCase city ∈ extractLocations regexMatches query := by
    unfold extractLocations dedupFirst
    refine (mem_dedupAux _ _ _).2 ⟨?_, by simp⟩
    refine List.mem_append.2 (Or.inr ?_)
    unfold cityMatches
    exact List.mem_map.2 ⟨city, List.mem_filter.2 ⟨hcity, hsub⟩, rfl⟩
  exact List.count_eq_one_of_mem hnd hmem

/-- Witness for claim C9: the query mentions chicago twice in two case
variants; the output is duplicate-free and holds Chicago exactly once. -/
theorem claim_C9_witness :
    (extractLocations [("Chicago")] ("coffee in Chicago and CHICAGO")).Nodup
    ∧ List.count (titleCase ("chicago"))
        (extractLocations [("Chicago")] ("coffee in Chicago and CHICAGO")) = 1 :=
  claim_C9 [("Chicago")] ("coffee in Chicago and CHICAGO") ("chicago")
    (by decide) (by decide)

/-! ## Theorems for claim C4 (plan dependency invariant) -/

/-- Soundness of the dependency checker: when it accepts, every phase's
dependencies lie among the initially seen names or the names of strictly
earlier phases. -/
theorem depsOkB_sound :
    ∀ (ps : List ExecutionPhase) (seen : List String), depsOkB seen ps = true →
      ∀ i (hi : i < ps.length) d, d ∈ (ps.get ⟨i, hi⟩).dependencies →
        d ∈ seen ∨ d ∈ (ps.take i).map (fun p => p.name) := by
  intro ps
  induction ps with
  | nil =>
    intro seen _ i hi
    simp at hi
  | cons p rest ih =>
    intro seen h i hi d hd
    rw [depsOkB, Bool.and_eq_true] at h
    obtain ⟨hall, hrest⟩ := h
    cases i with
    | zero =>
      left
      have hc := List.all_eq_true.1 hall d hd
      simpa using hc
    | succ n =>
      have hi' : n < rest.length := by simpa using hi
      have hstep := ih (seen ++ [p.name]) hrest n hi' d (by simpa using hd)
      rcases hstep with hseen | htake
      · rcases List.mem_append.1 hseen with h1 | h2
        · exact Or.inl h1
        · right
          have h2' : d = p.name := by simpa using h2
          subst h2'
          simp [List.take_succ_cons]
      · right
        simp only [List.take_succ_cons, List.map_cons, List.mem_cons]
        exact Or.inr htake

/-- Claim C4: for every analysis, each phase of the produced plan references in
`dependencies` only phase names that appear strictly earlier in the plan. -/
theorem claim_C4 (a : QueryAnalysis) : DepsValid (createExecutionPlan a).phases := by
  have h : depsOkB [] (createExecutionPlan a).phases = true := by
    obtain ⟨t, c, ag, ⟨locs, cats, mets, tfs⟩, rm, rs⟩ := a
    cases t <;> cases rm <;> cases locs <;> rfl
  intro i hi d hd
  rcases depsOkB_sound _ [] h i hi d hd with h1 | h2
  · simp at h1
  · exact h2

/-- Witness for claim C4: in the COMPREHENSIVE plan, the dependency `planning`
of the second phase names the phase strictly before it. -/
theorem claim_C4_witness :
    ("planning") ∈
      (((createExecutionPlan analysisComprehensive).phases.take 1).map (fun p => p.name)) :=
  claim_C4 analysisComprehensive 1 (by decide) ("planning") (by decide)

/-! ## Theorems for claim C2 (LOCATION_BASED planning) -/

/-- Counterexample to claim C2: at a LOCATION_BASED analysis the planner
produces the empty phase list — not the COMPREHENSIVE template (shown for the
otherwise-identical analysis) — and returns this no-op plan without any
error. -/
theorem claim_C2_counterexample :
    (createExecutionPlan analysisLocationBased).phases = []
    ∧ (createExecutionPlan analysisComprehensive).phases.map (fun p => p.name)
        = [("planning"), ("data_collection"), ("map_generation"), ("summarization")]
    ∧ (createExecutionPlan analysisLocationBased).phases
        ≠ (createExecutionPlan analysisComprehensive).phases := by
  refine ⟨rfl, rfl, ?_⟩
  intro hcontra
  exact absurd (congrArg List.length hcontra) (by decide)

set_option maxRecDepth 4000 in
/-- Amended claim C2: for every analysis of type LOCATION_BASED the planner
silently returns the empty plan (zero phases, the 2000 ms base estimate, not
parallelizable); it neither reuses the COMPREHENSIVE template nor fails. -/
theorem claim_C2_amended (a : QueryAnalysis) (h : a.type = QueryType.LOCATION_BASED) :
    createExecutionPlan a =
      { phases := [], estimatedDuration := 2000, parallelizable := false } := by
  obtain ⟨t, c, ag, es, rm, rs⟩ := a
  cases t with
  | LOCATION_BASED => rfl
  | SEARCH_ONLY => exact nomatch h
  | MAP_DATA_ONLY => exact nomatch h
  | COMPREHENSIVE => exact nomatch h
  | ANALYTICS => exact nomatch h

/-- Witness for the amended claim C2 at a concrete LOCATION_BASED analysis. -/
theorem claim_C2_witness :
    createExecutionPlan analysisLocationBased =
      { phases := [], estimatedDuration := 2000, parallelizable := false } :=
  claim_C2_amended analysisLocationBased rfl

/-! ## Theorems for claim C1 (failure semantics of coordination) -/

/-- The phase loop distributes over list append: the second segment runs only
when the first fully succeeds. -/
theorem runPhases_append {α : Type}
    (exec : ExecutionPhase → List (String × α) → Except String α) :
    ∀ (xs ys : List ExecutionPhase) (acc : List (String × α)),
      runPhases exec (xs ++ ys) acc =
        match runPhases exec xs acc with
        | Except.ok acc2 => runPhases exec ys acc2
        | Except.error e => Except.error e := by
  intro xs
  induction xs with
  | nil => intro ys acc; rfl
  | cons p rest ih =>
    intro ys acc
    simp only [List.cons_append, runPhases]
    cases exec p (buildPhaseContext p acc) with
    | error e => rfl
    | ok r => exact ih ys (acc ++ [(p.name, r)])

/-- Counterexample to claim C1: in the COMPREHENSIVE plan the phases
`map_generation` and `summarization` are mutually independent (both depend
only on `data_collection`); when the executor fails on `map_generation` alone,
the coordinator reports `success = false`, returns an EMPTY results map (the
results of the phases that did succeed are dropped), and the independent
`summarization` phase never runs — contradicting the claimed per-phase error
recording with the overall success flag staying true. -/
theorem claim_C1_counterexample :
    (executeCoordinatedQuery execFailMapGen combineRaw analysisComprehensive).success = false
    ∧ (executeCoordinatedQuery execFailMapGen combineRaw analysisComprehensive).phaseResults = []
    ∧ List.lookup ("summarization")
        (executeCoordinatedQuery execFailMapGen combineRaw analysisComprehensive).phaseResults
      = none
    ∧ (executeCoordinatedQuery execFailMapGen combineRaw analysisComprehensive).errors
      = some [("transient")] :=
  ⟨rfl, rfl, rfl, rfl⟩

/-- Amended claim C1: when the executor succeeds on a prefix of the plan and
then fails on the next phase with message `e`, the top-level coordination call
does not throw, but it aborts: it returns `success = false`, an empty
`phaseResults` map, no final output, and `errors = [e]`; the phases after the
failing one are never executed. -/
theorem claim_C1_amended {α β : Type}
    (exec : ExecutionPhase → List (String × α) → Except String α)
    (combine : QueryAnalysis → List (String × α) → β) (a : QueryAnalysis)
    (pre : List ExecutionPhase) (p : ExecutionPhase) (post : List ExecutionPhase)
    (rs : List (String × α)) (e : String)
    (hplan : (createExecutionPlan a).phases = pre ++ p :: post)
    (hpre : runPhases exec pre [] = Except.ok rs)
    (hfail : exec p (buildPhaseContext p rs) = Except.error e) :
    executeCoordinatedQuery exec combine a =
      { phaseResults := [], finalOutput := none, success := false,
        errors := some [e] } := by
  simp only [executeCoordinatedQuery]
  rw [hplan, runPhases_append, hpre]
  simp only [runPhases, hfail]

/-- Witness for the amended claim C1: the executor fails on `map_generation`
after `planning` and `data_collection` succeeded. -/
theorem claim_C1_witness :
    executeCoordinatedQuery execFailMapGen combineRaw analysisComprehensive =
      { phaseResults := [], finalOutput := none, success := false,
        errors := some [("transient")] } :=
  claim_C1_amended execFailMapGen combineRaw analysisComprehensive
    [phasePlanning, phaseDataCollection] phaseMapGenComprehensive [phaseSummarization]
    [(("planning"), ("ok")), (("data_collection"), ("ok"))] ("transient")
    rfl rfl rfl

/-! ## Theorems for claim C5 (bounds and center) -/

/-- A left fold of `max` lands on its start value or a list element. -/
theorem foldl_max_mem {α : Type} [LinearOrder α] (l : List α) (a : α) :
    l.foldl max a ∈ a :: l := by
  induction l generalizing a with
  | nil => simp
  | cons b t ih =>
    simp only [List.foldl]
    rcases List.mem_cons.1 (ih (max a b)) with h1 | h2
    · rw [h1]
      rcases max_choice a b with hm | hm <;> simp [hm]
    · exact List.mem_cons_of_mem _ (List.mem_cons_of_mem _ h2)

/-- The start value bounds a left `max`-fold from below. -/
theorem le_foldl_max {α : Type} [LinearOrder α] (l : List α) (a : α) :
    a ≤ l.foldl max a := by
  induction l generalizing a with
  | nil => simp
  | cons b t ih =>
    simp only [List.foldl]
    exact le_trans (le_max_left a b) (ih (max a b))

/-- Every list element bounds a left `max`-fold from below. -/
theorem mem_le_foldl_max {α : Type} [LinearOrder α] {x : α} (l : List α) (a : α)
    (h : x ∈ l) : x ≤ l.foldl max a := by
  induction l generalizing a with
  | nil => simp at h
  | cons b t ih =>
    simp only [List.foldl]
    rcases List.mem_cons.1 h with rfl | ht
    · exact le_trans (le_max_right a x) (le_foldl_max t (max a x))
    · exact ih (max a b) ht

/-- A left fold of `min` lands on its start value or a list element. -/
theorem foldl_min_mem {α : Type} [LinearOrder α] (l : List α) (a : α) :
    l.foldl min a ∈ a :: l := by
  induction l generalizing a with
  | nil => simp
  | cons b t ih =>
    simp only [List.foldl]
    rcases List.mem_cons.1 (ih (min a b)) with h1 | h2
    · rw [h1]
      rcases min_choice a b with hm | hm <;> simp [hm]
    · exact List.mem_cons_of_mem _ (List.mem_cons_of_mem _ h2)

/-- The start value bounds a left `min`-fold from above. -/
theorem foldl_min_le {α : Type} [LinearOrder α] (l : List α) (a : α) :
    l.foldl min a ≤ a := by
  induction l generalizing a with
  | nil => simp
  | cons b t ih =>
    simp only [List.foldl]
    exact le_trans (ih (min a b)) (min_le_left a b)

/-- A left `min`-fold bounds every list element from below. -/
theorem foldl_min_le_mem {α : Type} [LinearOrder α] {x : α} (l : List α) (a : α)
    (h : x ∈ l) : l.foldl min a ≤ x := by
  induction l generalizing a with
  | nil => simp at h
  | cons b t ih =>
    simp only [List.foldl]
    rcases List.mem_cons.1 h with rfl | ht
    · exact le_trans (foldl_min_le t (min a x)) (min_le_right a x)
    · exact ih (min a b) ht

/-- The accumulation loop of `calculateCenter` computes the list sum. -/
theorem foldl_add_eq (l : List ℚ) : ∀ s : ℚ, l.foldl (fun x y => x + y) s = s + l.sum := by
  induction l with
  | nil => intro s; simp
  | cons b t ih =>
    intro s
    simp only [List.foldl, List.sum_cons, ih (s + b)]
    ring

/-- Evaluation of `calculateBounds` when the Point list is known and nonempty. -/
theorem calculateBounds_eq_of_pointCoords {fs : List FeatureM} {p : ℚ × ℚ}
    {rest : List (ℚ × ℚ)} (hp : pointCoords fs = p :: rest) :
    calculateBounds fs =
      some { north := rest.foldl (fun m q => max m q.2) p.2
             south := rest.foldl (fun m q => min m q.2) p.2
             east := rest.foldl (fun m q => max m q.1) p.1
             west := rest.foldl (fun m q => min m q.1) p.1 } := by
  cases fs with
  | nil => simp [pointCoords] at hp
  | cons f ft => simp [calculateBounds, hp]

/-- Evaluation of `calculateCenter` when the Point list is known and nonempty. -/
theorem calculateCenter_eq_of_pointCoords {fs : List FeatureM} {p : ℚ × ℚ}
    {rest : List (ℚ × ℚ)} (hp : pointCoords fs = p :: rest) :
    calculateCenter fs =
      some { lat := ((p :: rest).foldl (fun s q => s + q.2) 0) / ((p :: rest).length : ℚ)
             lon := ((p :: rest).foldl (fun s q => s + q.1) 0) / ((p :: rest).length : ℚ) } := by
  cases fs with
  | nil => simp [pointCoords] at hp
  | cons f ft => simp [calculateCenter, hp]

/-- Claim C5: with at least one Point feature the bounds are the max/min of the
Point latitudes/longitudes and the center is their arithmetic mean; with zero
Point features both are null. Latitude is the second coordinate, longitude the
first, as in the source's `[lon, lat]` destructuring. -/
theorem claim_C5 (fs : List FeatureM) :
    (pointCoords fs = [] → calculateBounds fs = none ∧ calculateCenter fs = none)
    ∧ (pointCoords fs ≠ [] →
        (calculateBounds fs).isSome ∧ (calculateCenter fs).isSome)
    ∧ (∀ b, calculateBounds fs = some b →
        (b.north ∈ (pointCoords fs).map Prod.snd
          ∧ ∀ y ∈ (pointCoords fs).map Prod.snd, y ≤ b.north)
        ∧ (b.south ∈ (pointCoords fs).map Prod.snd
          ∧ ∀ y ∈ (pointCoords fs).map Prod.snd, b.south ≤ y)
        ∧ (b.east ∈ (pointCoords fs).map Prod.fst
          ∧ ∀ x ∈ (pointCoords fs).map Prod.fst, x ≤ b.east)
        ∧ (b.west ∈ (pointCoords fs).map Prod.fst
          ∧ ∀ x ∈ (pointCoords fs).map Prod.fst, b.west ≤ x))
    ∧ (∀ ctr, calculateCenter fs = some ctr →
        ctr.lat = ((pointCoords fs).map Prod.snd).sum / ((pointCoords fs).length : ℚ)
        ∧ ctr.lon = ((pointCoords fs).map Prod.fst).sum / ((pointCoords fs).length : ℚ)) := by
  refine ⟨?_, ?_, ?_, ?_⟩
  · intro hpts
    constructor
    · cases fs with
      | nil => rfl
      | cons f ft => simp [calculateBounds, hpts]
    · cases fs with
      | nil => rfl
      | cons f ft => simp [calculateCenter, hpts]
  · intro hne
    cases hp : pointCoords fs with
    | nil => exact absurd hp hne
    | cons p rest =>
      rw [calculateBounds_eq_of_pointCoords hp, calculateCenter_eq_of_pointCoords hp]
      exact ⟨rfl, rfl⟩
  · intro b hb
    cases hp : pointCoords fs with
    | nil =>
      rw [((by
        cases fs with
        | nil => rfl
        | cons f ft => simp [calculateBounds, hp]) : calculateBounds fs = none)] at hb
      exact nomatch hb
    | cons p rest =>
      rw [calculateBounds_eq_of_pointCoords hp] at hb
      obtain rfl : _ = b := Option.some.inj hb
      have hn : rest.foldl (fun m q => max m q.2) p.2
          = (rest.map Prod.snd).foldl max p.2 := by
        rw [List.foldl_map]
      have hs : rest.foldl (fun m q => min m q.2) p.2
          = (rest.map Prod.snd).foldl min p.2 := by
        rw [List.foldl_map]
      have he : rest.foldl (fun m q => max m q.1) p.1
          = (rest.map Prod.fst).foldl max p.1 := by
        rw [List.foldl_map]
      have hw : rest.foldl (fun m q => min m q.1) p.1
          = (rest.map Prod.fst).foldl min p.1 := by
        rw [List.foldl_map]
      refine ⟨⟨?_, ?_⟩, ⟨?_, ?_⟩, ⟨?_, ?_⟩, ⟨?_, ?_⟩⟩
      · rw [hn]
        exact foldl_max_mem _ _
      · intro y hy
        rw [hn]
        rcases List.mem_cons.1 hy with rfl | hyt
        · exact le_foldl_max _ _
        · exact mem_le_foldl_max _ _ hyt
      · rw [hs]
        exact foldl_min_mem _ _
      · intro y hy
        rw [hs]
        rcases List.mem_cons.1 hy with rfl | hyt
        · exact foldl_min_le _ _
        · exact foldl_min_le_mem _ _ hyt
      · rw [he]
        exact foldl_max_mem _ _
      · intro x hx
        rw [he]
        rcases List.mem_cons.1 hx with rfl | hxt
        · exact le_foldl_max _ _
        · exact mem_le_foldl_max _ _ hxt
      · rw [hw]
        exact foldl_min_mem _ _
      · intro x hx
        rw [hw]
        rcases List.mem_cons.1 hx with rfl | hxt
        · exact foldl_min_le _ _
        · exact foldl_min_le_mem _ _ hxt
  · intro ctr hc
    cases hp : pointCoords fs with
    | nil =>
      rw [((by
        cases fs with
        | nil => rfl
        | cons f ft => simp [calculateCenter, hp]) : calculateCenter fs = none)] at hc
      exact nomatch hc
    | cons p rest =>
      rw [calculateCenter_eq_of_pointCoords hp] at hc
      obtain rfl : _ = ctr := Option.some.inj hc
      constructor
      · show List.foldl (fun s q => s + q.2) 0 (p :: rest) / (((p :: rest).length : ℕ) : ℚ)
            = (List.map Prod.snd (p :: rest)).sum / (((p :: rest).length : ℕ) : ℚ)
        have h1 := List.foldl_map Prod.snd (fun x y => x + y) (p :: rest) (0 : ℚ)
        have h2 := foldl_add_eq ((p :: rest).map Prod.snd) 0
        rw [← h1, h2, zero_add]
      · show List.foldl (fun s q => s + q.1) 0 (p :: rest) / (((p :: rest).length : ℕ) : ℚ)
            = (List.map Prod.fst (p :: rest)).sum / (((p :: rest).length : ℕ) : ℚ)
        have h1 := List.foldl_map Prod.fst (fun x y => x + y) (p :: rest) (0 : ℚ)
        have h2 := foldl_add_eq ((p :: rest).map Prod.fst) 0
        rw [← h1, h2, zero_add]

/-- Witness for claim C5 at the sample features: bounds are (4, 2, 3, 1),
the center is (3, 2) and equals the coordinate means. -/
theorem claim_C5_witness :
    calculateBounds featuresSample = some { north := 4, south := 2, east := 3, west := 1 }
    ∧ calculateCenter featuresSample = some { lat := 3, lon := 2 }
    ∧ ((3 : ℚ) = ((pointCoords featuresSample).map Prod.snd).sum
          / ((pointCoords featuresSample).length : ℚ)
        ∧ (2 : ℚ) = ((pointCoords featuresSample).map Prod.fst).sum
          / ((pointCoords featuresSample).length : ℚ)) := by
  have h := (claim_C5 featuresSample).2.2.2 { lat := 3, lon := 2 }
    (by simp [calculateCenter, pointCoords, featuresSample]; norm_num)
  refine ⟨?_, ?_, h.1, h.2⟩
  · simp [calculateBounds, pointCoords, featuresSample]
    norm_num
  · simp [calculateCenter, pointCoords, featuresSample]
    norm_num

/-! ## Theorems for claim C6 (lazy cache expiry) -/

/-- Looking a key up after `Map.delete` of that key misses. -/
theorem lookup_removeKey {V : Type} (k : String) (c : List (String × V)) :
    List.lookup k (removeKey k c) = none := by
  induction c with
  | nil => rfl
  | cons kv t ih =>
    obtain ⟨k1, v1⟩ := kv
    unfold removeKey at ih ⊢
    by_cases h : k1 = k
    · subst h
      simp only [List.filter_cons]
      simpa using ih
    · have hne : ((k1, v1).1 != k) = true := by simpa using h
      have hba : (k == k1) = false := beq_eq_false_iff_ne.2 (fun hh => h hh.symm)
      simp only [List.filter_cons, hne, if_true]
      simpa [List.lookup, hba] using ih

/-- Claim C6: a stored entry read at or past its TTL is a miss and is removed;
an unexpired entry is returned unchanged with the cache untouched; reading the
same key twice with no intervening write yields the same value or two misses;
and through `executeWithCache` an unexpired entry is served from the cache
(`cached := true`) with the cache state unchanged. -/
theorem claim_C6 {V : Type} (c : List (String × CacheEntryM V)) (k : String)
    (now : Int) (e : CacheEntryM V) :
    (List.lookup k c = some e → e.ttl ≤ now - e.timestamp →
      cacheGet c k now = (none, removeKey k c))
    ∧ (List.lookup k c = some e → now - e.timestamp < e.ttl →
      cacheGet c k now = (some e.result, c))
    ∧ (cacheGet (cacheGet c k now).2 k now).1 = (cacheGet c k now).1
    ∧ (∀ (J : Type) (ser : J → String) (b64 : String → String) (extract : V → V)
        (tn : String) (params : List (String × J)) (ctl : Option Int)
        (ex : Except String V),
        List.lookup (generateCacheKey ser b64 tn params) c = some e →
        now - e.timestamp < e.ttl →
        executeWithCache ser b64 extract tn params true ctl now ex c =
          (Except.ok { data := e.result, cached := true, toolName := tn }, c)) := by
  refine ⟨?_, ?_, ?_, ?_⟩
  · intro hl hexp
    unfold cacheGet
    rw [hl]
    show (if now - e.timestamp < e.ttl then (some e.result, c)
          else (none, removeKey k c)) = (none, removeKey k c)
    rw [if_neg (by omega)]
  · intro hl hfresh
    unfold cacheGet
    rw [hl]
    show (if now - e.timestamp < e.ttl then (some e.result, c)
          else (none, removeKey k c)) = (some e.result, c)
    rw [if_pos hfresh]
  · unfold cacheGet
    cases hl : List.lookup k c with
    | none => simp [hl]
    | some e2 =>
      by_cases hf : now - e2.timestamp < e2.ttl
      · simp [hl, hf]
      · simp only [hl, if_neg hf]
        simp [lookup_removeKey]
  · intro J ser b64 extract tn params ctl ex hl hfresh
    have hg : cacheGet c (generateCacheKey ser b64 tn params) now = (some e.result, c) := by
      unfold cacheGet
      rw [hl]
      show (if now - e.timestamp < e.ttl then (some e.result, c)
            else (none, removeKey (generateCacheKey ser b64 tn params) c))
          = (some e.result, c)
      rw [if_pos hfresh]
    simp only [executeWithCache, if_true]
    rw [hg]

/-- Witness for claim C6: the sample entry (stored at 0, TTL 5) is expired and
removed when read at time 10, and served unchanged when read at time 3. -/
theorem claim_C6_witness :
    cacheGet cacheSample ("k") 10 = (none, removeKey ("k") cacheSample)
    ∧ cacheGet cacheSample ("k") 3 = (some ("v"), cacheSample) :=
  ⟨(claim_C6 cacheSample ("k") 10 { result := ("v"), timestamp := 0, ttl := 5 }).1
      rfl (by decide),
   (claim_C6 cacheSample ("k") 3 { result := ("v"), timestamp := 0, ttl := 5 }).2.1
      rfl (by decide)⟩

/-! ## Theorems for claim C7 (order-insensitive cache keys) -/

/-- A key is among an association list's keys iff looking it up succeeds. -/
theorem mem_keys_iff {J : Type} (k : String) (p : List (String × J)) :
    k ∈ p.map Prod.fst ↔ (List.lookup k p).isSome = true := by
  induction p with
  | nil => simp
  | cons kv t ih =>
    obtain ⟨k1, v1⟩ := kv
    by_cases h : k = k1
    · subst h
      simp [List.lookup]
    · have hba : (k == k1) = false := beq_eq_false_iff_ne.2 h
      simp [List.lookup, hba, ih, h]

/-- Claim C7: two parameter objects that are equal as key-to-value maps (same
lookups, duplicate-free keys) yield the identical derived cache key, whatever
the key enumeration order, for every value serialiser and base64 encoder. -/
theorem claim_C7 {J : Type} (ser : J → String) (b64 : String → String)
    (toolName : String) (p1 p2 : List (String × J))
    (h1 : (p1.map Prod.fst).Nodup) (h2 : (p2.map Prod.fst).Nodup)
    (hl : ∀ k, List.lookup k p1 = List.lookup k p2) :
    generateCacheKey ser b64 toolName p1 = generateCacheKey ser b64 toolName p2 := by
  have hperm : (p1.map Prod.fst).Perm (p2.map Prod.fst) :=
    (List.perm_ext_iff_of_nodup h1 h2).2
      (fun k => by rw [mem_keys_iff, mem_keys_iff, hl k])
  have hkeys : sortedKeys p1 = sortedKeys p2 := by
    have hs1 : List.Sorted (fun a b : String => a ≤ b) (sortedKeys p1) :=
      List.sorted_insertionSort _ _
    have hs2 : List.Sorted (fun a b : String => a ≤ b) (sortedKeys p2) :=
      List.sorted_insertionSort _ _
    exact List.eq_of_perm_of_sorted
      (((List.perm_insertionSort _ _).trans hperm).trans
        (List.perm_insertionSort _ _).symm)
      hs1 hs2
  have hrender : ∀ ks : List String,
      ks.filterMap (fun k => (List.lookup k p1).map (fun v => ("\"") ++ k ++ ("\":") ++ ser v))
        = ks.filterMap (fun k => (List.lookup k p2).map (fun v => ("\"") ++ k ++ ("\":") ++ ser v)) := by
    intro ks
    induction ks with
    | nil => rfl
    | cons a t ihks => simp [List.filterMap_cons, hl a, ihks]
  unfold generateCacheKey stringifySorted
  rw [hkeys, hrender]

/-- Witness for claim C7: the same two-entry parameter map enumerated in the
two possible orders produces the same cache key. -/
theorem claim_C7_witness :
    generateCacheKey (fun v : String => v) (fun s => s) ("searchPoiTool")
        [(("b"), ("1")), (("a"), ("2"))]
      = generateCacheKey (fun v : String => v) (fun s => s) ("searchPoiTool")
        [(("a"), ("2")), (("b"), ("1"))] := by
  apply claim_C7
  · decide
  · decide
  · intro k
    by_cases ha : k = ("a")
    · subst ha
      rfl
    · by_cases hb : k = ("b")
      · subst hb
        rfl
      · have h1 : (k == ("a")) = false := beq_eq_false_iff_ne.2 ha
        have h2 : (k == ("b")) = false := beq_eq_false_iff_ne.2 hb
        simp [List.lookup, h1, h2]

/-! ## Theorems for claim C8 (confidence baseline and context nudge) -/

/-- Claim C8 evaluated against the code: the analysis confidence is always the
0.8 baseline; but at the failing input — a SEARCH_ONLY analysis with a caller
context declaring the matching `places` domain focus — the confidence stays
0.8 instead of rising to at least 0.9, because the guard compares the
uppercase literals SEARCH and COMPREHENSIVE against the lowercase runtime enum
values: the final conjunct shows that guard is false for every `QueryType`, so
the `places` nudge branch is unreachable. -/
theorem claim_C8 :
    (∀ (regexMatches : List String) (q : String),
      (analyzeQuery regexMatches q).confidence = (0.8 : ℚ))
    ∧ (applyUserContext analysisSearchPlain
        (some { userLocation := none, domainFocus := some DomainFocus.places })).confidence
      = (0.8 : ℚ)
    ∧ (0.8 : ℚ) < (0.9 : ℚ)
    ∧ (∀ t : QueryType,
        (containsSub t.val ("SEARCH") || containsSub t.val ("COMPREHENSIVE")) = false) := by
  refine ⟨fun _ _ => rfl, rfl, by norm_num, fun t => by cases t <;> rfl⟩

/-! ## Theorems for claim C10 (cacheHits reports cache size) -/

/-- Claim C10: the `cacheHits` metric is the number of entries currently stored
in the cache — independent of the read time and of anything about the request —
and is therefore positive for any nonempty cache even when no read was served
from it. -/
theorem claim_C10 {V : Type} (cache : List (String × CacheEntryM V))
    (now now2 : Int) :
    getCacheHitCount cache now = cache.length
    ∧ getCacheHitCount cache now = getCacheHitCount cache now2
    ∧ (cache ≠ [] → 0 < getCacheHitCount cache now) := by
  refine ⟨rfl, rfl, ?_⟩
  intro h
  exact List.length_pos.2 h

/-- Witness for claim C10: the sample cache holds one entry, so the reported
`cacheHits` is positive although nothing was read. -/
theorem claim_C10_witness : 0 < getCacheHitCount cacheSample 99 :=
  (claim_C10 cacheSample 99 0).2.2 (by decide)
